import Mathlib

/-!
Verification of the gridfs-stream repository (`lib/index.js`) against its
natural-language specification.

Modelling conventions used throughout this development:

* JavaScript strings are modelled by `String`, byte payloads by `List Nat`,
  timestamps (`Date` values / ms since the Unix epoch) by `Nat`.
* The source only ever inspects request-header values and optional metadata
  fields through JavaScript truthiness tests (`!x`, `x ? _ : _`, `x && _`).
  For string-valued slots a missing value (`undefined`) and the empty string
  are both falsy and the code never distinguishes them, so such slots are
  modelled as `Option String` where `none` stands for any JS-falsy value
  (absent header / absent field / empty string) and `some v` for a truthy
  value `v`.
* Fallible operations return `Except`; a JS `throw` is `Except.error`.
-/

/-! ### HTTP date formatting

`Grid.prototype.setCacheControl` emits
`'Last-Modified': new Date(metadata.uploadDate).toUTCString()`.
`Date.prototype.toUTCString` produces the HTTP-date form
`Www, DD Mmm YYYY HH:MM:SS GMT`; we implement that rendering for
timestamps given as milliseconds since the Unix epoch (1970-01-01T00:00:00Z),
using the standard civil-from-days calendar conversion. -/

def pad2 (n : Nat) : String :=
  if n < 10 then "0" ++ toString n else toString n

def pad4 (n : Nat) : String :=
  if n < 10 then "000" ++ toString n
  else if n < 100 then "00" ++ toString n
  else if n < 1000 then "0" ++ toString n
  else toString n

def weekdayName (n : Nat) : String :=
  match n with
  | 0 => "Sun" | 1 => "Mon" | 2 => "Tue" | 3 => "Wed"
  | 4 => "Thu" | 5 => "Fri" | _ => "Sat"

def monthName (m : Nat) : String :=
  match m with
  | 1 => "Jan" | 2 => "Feb" | 3 => "Mar" | 4 => "Apr"
  | 5 => "May" | 6 => "Jun" | 7 => "Jul" | 8 => "Aug"
  | 9 => "Sep" | 10 => "Oct" | 11 => "Nov" | _ => "Dec"

/-- Gregorian (year, month, day) of the day `z` days after 1970-01-01. -/
def civilFromDays (z : Nat) : Nat × Nat × Nat :=
  let z' := z + 719468
  let era := z' / 146097
  let doe := z' % 146097
  let yoe := (doe - doe / 1460 + doe / 36524 - doe / 146096) / 365
  let doy := doe - (365 * yoe + yoe / 4 - yoe / 100)
  let mp := (5 * doy + 2) / 153
  let d := doy - (153 * mp + 2) / 5 + 1
  let m := if mp < 10 then mp + 3 else mp - 9
  (yoe + era * 400 + (if m ≤ 2 then 1 else 0), m, d)

/-- `Date.prototype.toUTCString` for a timestamp in ms since the epoch. -/
def toUTCString (ms : Nat) : String :=
  let days := ms / 86400000
  let msOfDay := ms % 86400000
  let h := msOfDay / 3600000
  let mi := msOfDay % 3600000 / 60000
  let sec := msOfDay % 60000 / 1000
  let ymd := civilFromDays days
  weekdayName ((days + 4) % 7) ++ ", " ++ pad2 ymd.2.2 ++ " " ++
    monthName ymd.2.1 ++ " " ++ pad4 ymd.1 ++ " " ++
    pad2 h ++ ":" ++ pad2 mi ++ ":" ++ pad2 sec ++ " GMT"

/-! ### Cache support (`Grid.prototype.setCacheControl`, lib/index.js:203-218,
and `Grid.prototype._checkForCacheFromRequest`, lib/index.js:228-235) -/

/-- A metadata record as consumed by `setCacheControl` after its presence
checks have passed: a (truthy) `md5` checksum, a `uploadDate` timestamp and a
(truthy) `contentType`.  The `md5` field is the file checksum of the data
model; `setCacheControl` uses it as the ETag value. -/
structure FileMetaCore where
  md5 : String
  uploadDate : Nat
  contentType : String
deriving DecidableEq

/-- The request headers `_checkForCacheFromRequest` reads.  `none` models a
JS-falsy header value (header absent, or present with the empty value); the
source only tests these slots for truthiness. -/
structure HttpRequest where
  cacheControl : Option String
  ifNoneMatch : Option String

/-- JavaScript `String.prototype.split(', ')` on the character list of the
input: cut the list at every occurrence of the two-character separator
`', '`; an input without the separator yields the one-element list holding
the input itself. -/
def splitCommaSpace (s : List Char) (acc : List Char) : List (List Char) :=
  match s with
  | [] => [acc.reverse]
  | ',' :: ' ' :: rest => acc.reverse :: splitCommaSpace rest []
  | c :: rest => splitCommaSpace rest (c :: acc)

/-- `v.split(', ')` for a JS string `v`. -/
def jsSplitCommaSpace (v : String) : List String :=
  (splitCommaSpace v.toList []).map List.asString

/-- `Grid.prototype._checkForCacheFromRequest(request, match)`
(lib/index.js:228-235):

```
var cache = request.headers['cache-control']
  ? request.headers['cache-control'].split(', ') : null;
if (!cache || (cache.indexOf('no-cache') != -1) || (cache.indexOf('private') != -1)
|| (request.headers['if-none-match'] && request.headers['if-none-match'] != match)) {
  return true;
}
return false;
```
-/
def checkForCacheFromRequest (request : HttpRequest) (mtch : String) : Bool :=
  match request.cacheControl with
  | none => true
  | some v =>
    let cache := jsSplitCommaSpace v
    cache.contains "no-cache" || cache.contains "private" ||
      (match request.ifNoneMatch with
       | some inm => inm != mtch
       | none => false)

/-- The five headers `setCacheControl` always emits via `response.set`,
in source order. -/
def cacheHeaders (metadata : FileMetaCore) : List (String × String) :=
  [("Pragma", "public"),
   ("Accept-Ranges", "bytes"),
   ("Cache-Control", "public, max-age=0"),
   ("ETag", metadata.md5),
   ("Last-Modified", toUTCString metadata.uploadDate)]

/-- The body of `Grid.prototype.setCacheControl` after its argument checks:
emit the five base headers, then either add `Content-Type` and return 200
(when `_checkForCacheFromRequest` says the response must be served) or
return 304.  The result is the emitted header list and the returned status. -/
def setCacheControlCore (metadata : FileMetaCore) (request : HttpRequest) :
    List (String × String) × Nat :=
  if checkForCacheFromRequest request metadata.md5 then
    (cacheHeaders metadata ++ [("Content-Type", metadata.contentType)], 200)
  else
    (cacheHeaders metadata, 304)

/-- A metadata argument as `setCacheControl` receives it, before validation:
each of the three fields it checks may be JS-falsy (`none`). -/
structure FileMetaJS where
  md5 : Option String
  uploadDate : Option Nat
  contentType : Option String

/-- `Grid.prototype.setCacheControl(metadata, request, response)`
(lib/index.js:203-218) including its two `throw` statements:

```
if (!metadata || !request || !response) { throw ... }
if (!metadata.md5 || !metadata.uploadDate || !metadata.contentType) { throw ... }
```

`responsePresent` models whether a (truthy) response object was passed; the
response itself is represented by the returned header list. -/
def setCacheControl (metadata : Option FileMetaJS) (request : Option HttpRequest)
    (responsePresent : Bool) : Except String (List (String × String) × Nat) :=
  match metadata, request, responsePresent with
  | some md, some req, true =>
    match md.md5, md.uploadDate, md.contentType with
    | some h, some d, some ct => Except.ok (setCacheControlCore ⟨h, d, ct⟩ req)
    | _, _, _ =>
      Except.error "metadata should have md5, uploadDate and contentType members"
  | _, _, _ => Except.error "Grid.setCacheControl(metadata, request, response)"

/-- The serve condition exactly as the specification words it: no
cache-control header is present, or it contains `no-cache` or `private`
(as a `', '`-separated directive), or an if-none-match header is present and
differs from the checksum. -/
def specServes (metadata : FileMetaCore) (request : HttpRequest) : Prop :=
  request.cacheControl = none
  ∨ (∃ v, request.cacheControl = some v ∧
      ("no-cache" ∈ jsSplitCommaSpace v ∨ "private" ∈ jsSplitCommaSpace v))
  ∨ (∃ inm, request.ifNoneMatch = some inm ∧ inm ≠ metadata.md5)

theorem check_iff_specServes (metadata : FileMetaCore) (request : HttpRequest) :
    checkForCacheFromRequest request metadata.md5 = true ↔
      specServes metadata request := by
  rcases request with ⟨cc, inm⟩
  cases cc with
  | none =>
    simp [checkForCacheFromRequest, specServes]
  | some v =>
    cases inm with
    | none =>
      simp [checkForCacheFromRequest, specServes, List.contains_iff_exists_mem_beq]
    | some e =>
      simp [checkForCacheFromRequest, specServes, List.contains_iff_exists_mem_beq,
        bne_iff_ne]

/-- Claim C1: for every metadata record and request header set, the
cache-support operation computes status 200 ("serve") exactly when no
cache-control header is present, or the cache-control header contains
`no-cache` or `private`, or an if-none-match header is present and differs
from the checksum; in all other cases it computes status 304
("not modified"). -/
theorem c1_cache_disposition (metadata : FileMetaCore) (request : HttpRequest) :
    ((setCacheControlCore metadata request).2 = 200 ↔ specServes metadata request)
    ∧ ((setCacheControlCore metadata request).2 = 304 ↔
        ¬ specServes metadata request) := by
  have h := check_iff_specServes metadata request
  by_cases hs : specServes metadata request
  · have hc : checkForCacheFromRequest request metadata.md5 = true := h.mpr hs
    simp [setCacheControlCore, hc, hs]
  · have hc : checkForCacheFromRequest request metadata.md5 = false := by
      cases hb : checkForCacheFromRequest request metadata.md5 with
      | true => exact absurd (h.mp hb) hs
      | false => rfl
    simp [setCacheControlCore, hc, hs]

/-! ### Claim C2: the concrete cache scenario -/

/-- The metadata record of the spec's concrete cache scenario: checksum
(`md5`) is `"abc123"`. -/
def abc123Meta : FileMetaCore := ⟨"abc123", 0, "text/html"⟩

/-- Claim C2 counterexample: the claim asserts that a request carrying
`if-none-match: abc123` (matching the checksum) and no `cache-control`
header yields status 304.  The code disagrees: `_checkForCacheFromRequest`
returns `true` whenever the cache-control header is absent (`!cache`), so
`setCacheControl` serves with status 200 on exactly this input. -/
theorem c2_counterexample :
    (setCacheControlCore abc123Meta ⟨none, some "abc123"⟩).2 = 200
    ∧ (setCacheControlCore abc123Meta ⟨none, some "abc123"⟩).2 ≠ 304 := by
  constructor
  · rfl
  · decide

/-- Claim C2 as amended: with checksum `"abc123"`, a request carrying
`if-none-match: abc123` and no `cache-control` header yields disposition
"serve" with status 200 (a missing cache-control header always forces a
serve), and a request carrying `cache-control: no-cache` also yields
disposition "serve" with status 200 regardless of whether if-none-match
equals the checksum. -/
theorem c2_amended :
    (setCacheControlCore abc123Meta ⟨none, some "abc123"⟩).2 = 200
    ∧ ∀ inm : Option String,
        (setCacheControlCore abc123Meta ⟨some "no-cache", inm⟩).2 = 200 := by
  refine ⟨rfl, fun inm => ?_⟩
  cases inm with
  | none => rfl
  | some s => rfl

/-! ### Claim C3: emitted headers -/

/-- Claim C3: for every valid (metadata, request, response) input the
cache-support operation emits `ETag = checksum` (the `md5` field),
`Last-Modified = uploadDate` rendered in the standard HTTP date format,
`Cache-Control: public, max-age=0`, `Pragma: public` and
`Accept-Ranges: bytes` under both dispositions, and emits
`Content-Type = contentType` exactly when the status is 200 ("serve"),
never when it is 304 ("not modified"). -/
theorem c3_headers (metadata : FileMetaCore) (request : HttpRequest) :
    ((setCacheControlCore metadata request).2 = 200
      ∨ (setCacheControlCore metadata request).2 = 304)
    ∧ (setCacheControlCore metadata request).1.lookup "ETag" = some metadata.md5
    ∧ (setCacheControlCore metadata request).1.lookup "Last-Modified"
        = some (toUTCString metadata.uploadDate)
    ∧ (setCacheControlCore metadata request).1.lookup "Cache-Control"
        = some "public, max-age=0"
    ∧ (setCacheControlCore metadata request).1.lookup "Pragma" = some "public"
    ∧ (setCacheControlCore metadata request).1.lookup "Accept-Ranges" = some "bytes"
    ∧ ((setCacheControlCore metadata request).2 = 200 ↔
        (setCacheControlCore metadata request).1.lookup "Content-Type"
          = some metadata.contentType)
    ∧ ((setCacheControlCore metadata request).2 = 304 ↔
        (setCacheControlCore metadata request).1.lookup "Content-Type" = none) := by
  cases hc : checkForCacheFromRequest request metadata.md5 with
  | true => simp [setCacheControlCore, hc, cacheHeaders, List.lookup]
  | false => simp [setCacheControlCore, hc, cacheHeaders, List.lookup]

/-! ### Claim C9: argument and metadata validation -/

/-- Claim C9: `setCacheControl` raises (and emits no headers) exactly when
one of its three arguments is missing or the metadata record lacks a (truthy)
`md5`, `uploadDate` or `contentType` field; when all these preconditions are
satisfied it never raises. -/
theorem c9_validation (metadata : Option FileMetaJS) (request : Option HttpRequest)
    (responsePresent : Bool) :
    (∃ e, setCacheControl metadata request responsePresent = Except.error e) ↔
      (metadata = none ∨ request = none ∨ responsePresent = false
        ∨ ∃ r, metadata = some r ∧
            (r.md5 = none ∨ r.uploadDate = none ∨ r.contentType = none)) := by
  cases metadata with
  | none => simp [setCacheControl]
  | some md =>
    cases request with
    | none => simp [setCacheControl]
    | some req =>
      cases responsePresent with
      | false => simp [setCacheControl]
      | true =>
        rcases md with ⟨h5, ud, ct⟩
        cases h5 <;> cases ud <;> cases ct <;> simp [setCacheControl]

/-! ### The Grid handle and its collection state
(`Grid`, lib/index.js:17-32; `files` getter, lib/index.js:61-66;
`Grid.prototype.collection`, lib/index.js:75-78) -/

/-- The mongodb driver's `GridStore.DEFAULT_ROOT_COLLECTION` constant
(external collaborator, modelled by its documented value). -/
def DEFAULT_ROOT_COLLECTION : String := "fs"

/-- The mutable state the `Grid` constructor puts on the handle: `curCol`
(the current root collection name) and `_col` (the cached `.files`
collection, modelled by its name). -/
structure GridState where
  curCol : String
  col : Option String
deriving DecidableEq

/-- `new Grid(db, mongo)` (lib/index.js:17-32):
`this.curCol = this.mongo.GridStore ? this.mongo.GridStore.DEFAULT_ROOT_COLLECTION : 'fs'`.
`hasGridStore` models whether the supplied driver exposes `GridStore`. -/
def gridInit (hasGridStore : Bool) : GridState :=
  { curCol := if hasGridStore then DEFAULT_ROOT_COLLECTION else "fs",
    col := none }

/-- `Grid.prototype.collection(name)` (lib/index.js:75-78):

```
this.curCol = name || this.curCol || this.mongo.GridStore.DEFAULT_ROOT_COLLECTION;
return this._col = this.db.collection(this.curCol + ".files");
```

Returns the updated handle state and the name of the collection targeted.
`name = none` models a JS-falsy argument (omitted or empty). -/
def Grid.collection (s : GridState) (name : Option String) : GridState × String :=
  let cur :=
    match name with
    | some n => n
    | none => if s.curCol ≠ "" then s.curCol else DEFAULT_ROOT_COLLECTION
  ({ curCol := cur, col := some (cur ++ ".files") }, cur ++ ".files")

/-- The `files` getter (lib/index.js:61-66): return the cached `_col` if set,
else `this.collection()`. -/
def Grid.files (s : GridState) : GridState × String :=
  match s.col with
  | some c => (s, c)
  | none => Grid.collection s none

/-! ### Identifier parsing and key selection
(`Grid.prototype.tryParseObjectId`, lib/index.js:186-192;
`Grid.prototype.remove`, lib/index.js:87-96;
`Grid.prototype.exist`, lib/index.js:105-114) -/

/-- A parsed native driver `ObjectID`, modelled by the string it was built
from. -/
structure ObjectID where
  hex : String
deriving DecidableEq

def isHexDigit (c : Char) : Bool :=
  ('0' ≤ c && c ≤ '9') || ('a' ≤ c && c ≤ 'f') || ('A' ≤ c && c ≤ 'F')

/-- Validity rule of the external driver's `new ObjectID(string)` for string
arguments: a 12-character binary string or a 24-character hex string;
anything else makes the constructor throw. -/
def isValidObjectId (s : String) : Bool :=
  s.length == 12 || (s.length == 24 && s.toList.all isHexDigit)

/-- `Grid.prototype.tryParseObjectId(string)` (lib/index.js:186-192): wrap
`new this.mongo.ObjectID(string)` in try/catch; the catch branch returns the
JS value `false`, modelled by `none`.  The function is total: it never
propagates the constructor's exception. -/
def tryParseObjectId (s : String) : Option ObjectID :=
  if isValidObjectId s then some ⟨s⟩ else none

/-- A JS value passed to `GridStore.unlink` / `GridStore.exist` as the file
key: a parsed ObjectID, a raw string, or `undefined` (no `_id` and no
`filename` given). -/
inductive JSKey where
  | oid : ObjectID → JSKey
  | str : String → JSKey
  | undef : JSKey
deriving DecidableEq

/-- The options bags of `remove`, `exist`, `findOne`: the fields the source
reads.  `none` models a JS-falsy field. -/
structure FindOptions where
  id : Option String
  filename : Option String
  root : Option String

/-- Key selection of `Grid.prototype.remove(options, callback)`
(lib/index.js:87-96):

```
var _id;
if (options._id) { _id = this.tryParseObjectId(options._id) || options._id; }
if (!_id) { _id = options.filename; }
return this.mongo.GridStore.unlink(this.db, _id, options, callback);
```
-/
def removeKey (options : FindOptions) : JSKey :=
  match options.id with
  | some s =>
    match tryParseObjectId s with
    | some o => JSKey.oid o
    | none => JSKey.str s
  | none =>
    match options.filename with
    | some f => JSKey.str f
    | none => JSKey.undef

/-- Key selection of `Grid.prototype.exist(options, callback)`
(lib/index.js:105-114), which duplicates the logic of `remove` before calling
`GridStore.exist(this.db, _id, options.root, callback)`. -/
def existKey (options : FindOptions) : JSKey :=
  match options.id with
  | some s =>
    match tryParseObjectId s with
    | some o => JSKey.oid o
    | none => JSKey.str s
  | none =>
    match options.filename with
    | some f => JSKey.str f
    | none => JSKey.undef

/-! ### `Grid.prototype.findOne` (lib/index.js:123-145) -/

/-- A document of a `<root>.files` collection, restricted to the fields this
development queries: the stored ObjectID (by its hex string), the filename
and the upload timestamp. -/
structure FileRecord where
  id : String
  filename : String
  uploadDate : Nat
deriving DecidableEq

/-- The `_id` criterion of the query object `findOne` builds:
`find._id = this.tryParseObjectId(find._id) || find._id` leaves either a
parsed ObjectID or the raw string. -/
inductive QueryId where
  | oid : ObjectID → QueryId
  | str : String → QueryId
deriving DecidableEq

/-- The query object `find` built by `findOne`/`find`: every option except
`root` is copied (the fields modelled here are `_id` and `filename`), then
`find._id` is replaced by its parse when it parses. -/
structure FindQuery where
  id : Option QueryId
  filename : Option String

def buildFind (options : FindOptions) : FindQuery :=
  { id := options.id.map (fun s =>
      match tryParseObjectId s with
      | some o => QueryId.oid o
      | none => QueryId.str s),
    filename := options.filename }

/-- Mongo equality matching of one stored document against the query: each
present criterion must equal the corresponding field.  A raw-string `_id`
criterion never equals a stored ObjectID (distinct BSON types), mirroring the
driver's comparison. -/
def recMatches (q : FindQuery) (r : FileRecord) : Bool :=
  (match q.id with
   | none => true
   | some (QueryId.oid o) => r.id == o.hex
   | some (QueryId.str _) => false) &&
  (match q.filename with
   | none => true
   | some f => r.filename == f)

/-- The collection `findOne` queries (lib/index.js:135):

```
var collection = options.root && options.root != this.curCol
  ? this.mongo.Collection(this.db, options.root + '.files', null, null)
  : this.files;
```
-/
def findOneTarget (s : GridState) (options : FindOptions) : GridState × String :=
  match options.root with
  | some r => if r ≠ s.curCol then (s, r ++ ".files") else Grid.files s
  | none => Grid.files s

/-- `Grid.prototype.findOne(options, callback)` (lib/index.js:123-145): build
the query, pick the target collection, run `collection.find` and hand the
callback `cursor.nextObject`, i.e. the first matching document in the
collection's natural order, or `null` (here `none`) when nothing matches.
`db` maps a collection name to its documents in natural (cursor) order;
driver-level failures (the `err` / missing-cursor callbacks) are outside the
model, so the result is always `Except.ok`. -/
def findOne (s : GridState) (options : FindOptions) (db : String → List FileRecord) :
    GridState × Except String (Option FileRecord) :=
  let tc := findOneTarget s options
  (tc.1, Except.ok (((db tc.2).filter (recMatches (buildFind options))).head?))

/-! ### Claim C5: ambiguous filename resolution -/

/-- Two records sharing a filename; the record stored first is the older
one. -/
def c5RecOld : FileRecord := ⟨"a1", "shared.txt", 100⟩

def c5RecNew : FileRecord := ⟨"a2", "shared.txt", 200⟩

def c5Db : String → List FileRecord :=
  fun c => if c = "fs.files" then [c5RecOld, c5RecNew] else []

def c5Opts : FindOptions := ⟨none, some "shared.txt", none⟩

/-- Claim C5 counterexample: the claim asserts that a by-filename selection
matching several records yields the one with the most recent `uploadDate`.
`findOne` applies no sort: it returns the first matching document in cursor
order.  Here both records match, the second has the larger `uploadDate`, yet
the first (older) one is returned. -/
theorem c5_counterexample :
    (findOne (gridInit true) c5Opts c5Db).2 = Except.ok (some c5RecOld)
    ∧ c5RecNew ∈ (c5Db "fs.files").filter (recMatches (buildFind c5Opts))
    ∧ c5RecOld.uploadDate < c5RecNew.uploadDate := by
  refine ⟨rfl, ?_, by decide⟩
  decide

/-- Claim C5 as amended: for every read-open selection that matches multiple
FileMetadata records, the resolver deterministically returns the first
matching record in the collection's natural (cursor) order; no
most-recent-`uploadDate` tie-break is applied. -/
theorem c5_amended (s : GridState) (options : FindOptions)
    (db : String → List FileRecord) (r : FileRecord) (rest : List FileRecord)
    (h : (db (findOneTarget s options).2).filter (recMatches (buildFind options))
          = r :: rest) :
    (findOne s options db).2 = Except.ok (some r) := by
  simp [findOne, h]

/-- Claim C5 amended, witnessed on the concrete two-record store: the first
record in cursor order is returned. -/
theorem c5_amended_witness :
    (findOne (gridInit true) c5Opts c5Db).2 = Except.ok (some c5RecOld) :=
  c5_amended (gridInit true) c5Opts c5Db c5RecOld [c5RecNew] (by decide)

/-! ### Claim C6: zero matches on read-open -/

def c6Opts : FindOptions := ⟨none, some "missing.bin", none⟩

/-- Claim C6 counterexample: the claim asserts a selection matching zero
records fails with a `NotFound` error.  `findOne` instead completes
successfully and hands the callback a null document (`none`): on an empty
store the result is `Except.ok none`, not an error. -/
theorem c6_counterexample :
    (findOne (gridInit true) c6Opts (fun _ => [])).2 = Except.ok none := by
  rfl

/-- Claim C6 as amended: for every selection that matches zero FileMetadata
records, `findOne` succeeds and passes a null record (`none`) to its
callback; no `NotFound` error is produced and callers must detect absence
from the null result. -/
theorem c6_amended (s : GridState) (options : FindOptions)
    (db : String → List FileRecord)
    (h : (db (findOneTarget s options).2).filter (recMatches (buildFind options))
          = []) :
    (findOne s options db).2 = Except.ok none := by
  simp [findOne, h]

/-- Claim C6 amended, witnessed on a concrete empty store. -/
theorem c6_amended_witness :
    (findOne (gridInit true) c6Opts (fun _ => [])).2 = Except.ok none :=
  c6_amended (gridInit true) c6Opts (fun _ => []) (by decide)

/-! ### Claim C7: default root namespace -/

/-- Claim C7: when no root namespace is supplied — neither by the driver
(`gridInit false`), nor to `collection`, nor in the options of a query — the
root defaults to `"fs"` and metadata queries target the `"fs.files"`
collection. -/
theorem c7_default_root :
    (∀ hasGridStore : Bool, (gridInit hasGridStore).curCol = "fs")
    ∧ (Grid.collection (gridInit true) none).2 = "fs.files"
    ∧ (∀ options : FindOptions, options.root = none →
        (findOneTarget (gridInit true) options).2 = "fs.files") := by
  refine ⟨fun hasGridStore => ?_, rfl, fun options h => ?_⟩
  · cases hasGridStore <;> rfl
  · simp [findOneTarget, h, Grid.files, gridInit, Grid.collection,
      DEFAULT_ROOT_COLLECTION]

/-- Claim C7, witnessed on a concrete by-filename query without a root. -/
theorem c7_default_root_witness :
    (findOneTarget (gridInit true) ⟨none, some "x", none⟩).2 = "fs.files" :=
  c7_default_root.2.2 ⟨none, some "x", none⟩ rfl

/-! ### Claim C8: shared default-collection state -/

/-- Claim C8 counterexample: the claim asserts no operation on the store
handle mutates which collection later operations target.  But
`Grid.prototype.collection('photos')` updates `this.curCol`/`this._col` in
place: a later `collection()` call with no argument on the same handle
targets `photos.files`, while on a fresh handle it targets `fs.files`. -/
theorem c8_counterexample :
    (Grid.collection (gridInit true) none).2 = "fs.files"
    ∧ (Grid.collection ((Grid.collection (gridInit true) (some "photos")).1) none).2
        = "photos.files"
    ∧ ("photos.files" : String) ≠ "fs.files" := by
  refine ⟨rfl, rfl, by decide⟩

/-- Claim C8 as amended: the root/namespace configuration is shared mutable
state on the `Grid` handle: `collection(name)` sets `curCol` to `name` and
caches `name + ".files"`, and every later operation on that handle that omits
`root` (such as `findOne`) targets the updated collection. -/
theorem c8_amended (s : GridState) (name : String) :
    ((Grid.collection s (some name)).1).curCol = name
    ∧ (∀ options : FindOptions, options.root = none →
        (findOneTarget ((Grid.collection s (some name)).1) options).2
          = name ++ ".files") := by
  refine ⟨rfl, fun options h => ?_⟩
  simp [findOneTarget, h, Grid.files, Grid.collection]

/-- Claim C8 amended, witnessed: after `collection('photos')`, a rootless
`findOne` on the same handle targets `photos.files`. -/
theorem c8_amended_witness :
    (findOneTarget ((Grid.collection (gridInit true) (some "photos")).1)
      ⟨none, none, none⟩).2 = "photos.files" :=
  (c8_amended (gridInit true) "photos").2 ⟨none, none, none⟩ rfl

/-! ### Claim C10: identifier resolution and key fallback -/

/-- Claim C10: identifier resolution is total with a deterministic fallback:
`tryParseObjectId` yields a parsed ObjectID exactly for driver-valid id
strings and otherwise the JS value `false` (`none`), never propagating an
exception; and for every options bag, `remove` and `exist` use the same key —
the parsed ObjectID when `_id` parses, otherwise the raw `_id` when present,
otherwise the `filename`. -/
theorem c10_key_resolution (s : String) (options : FindOptions) :
    ((tryParseObjectId s).isSome ↔ isValidObjectId s = true)
    ∧ removeKey options = existKey options
    ∧ (∀ t, options.id = some t →
        removeKey options =
          (match tryParseObjectId t with
           | some o => JSKey.oid o
           | none => JSKey.str t))
    ∧ (options.id = none →
        removeKey options =
          (match options.filename with
           | some f => JSKey.str f
           | none => JSKey.undef)) := by
  refine ⟨?_, ?_, fun t ht => ?_, fun h => ?_⟩
  · simp [tryParseObjectId]
  · rcases options with ⟨oid, ofn, orr⟩
    cases oid <;> cases ofn <;> rfl
  · simp [removeKey, ht]
  · simp [removeKey, h]

/-- Claim C10, witnessed on a concrete options bag whose `_id` is a valid
24-hex-character id: both `remove` and `exist` key on the parsed ObjectID. -/
theorem c10_key_resolution_witness :
    removeKey ⟨some "aaaaaaaaaaaaaaaaaaaaaaaa", some "f", none⟩
      = JSKey.oid ⟨"aaaaaaaaaaaaaaaaaaaaaaaa"⟩ := by
  have h := (c10_key_resolution "aaaaaaaaaaaaaaaaaaaaaaaa"
    ⟨some "aaaaaaaaaaaaaaaaaaaaaaaa", some "f", none⟩).2.2.1
    "aaaaaaaaaaaaaaaaaaaaaaaa" rfl
  simpa using h

/-! ### Claims C4: the write/read session round trip

`Grid.prototype.createWriteStream` and `Grid.prototype.createReadStream`
(lib/index.js:41-54) construct the session objects of `lib/writestream.js`
and `lib/readstream.js`, which are not under src/.  The definitions below are
therefore modelled from the spec: the WriteSession state machine of spec
section 4.1 (greedy buffer-then-flush chunking with a final short chunk at
`end()`) and the ReadSession fetch/trim loop of spec section 4.2, over the
error taxonomy of spec section 7. -/

/-- Modelled from the spec: the error taxonomy (spec section 7). -/
inductive GfsError where
  | InvalidArgument
  | NotFound
  | InvalidRange
  | MissingChunk
  | WriteAfterClose
  | StoreError
deriving DecidableEq

/-- Modelled from the spec: WriteSession status (spec section 4.1). -/
inductive WriteStatus where
  | Open
  | Flushing
  | Closed
  | Failed
deriving DecidableEq

/-- Modelled from the spec: the WriteSession state
`{buffer, nextSeq, totalLength, fileId-chunks-so-far, status}`; the chunks
persisted so far stand for the ChunkStore contents keyed by sequence
number (the checksum accumulator is not needed by the claims settled here). -/
structure WriteState where
  buffer : List Nat
  nextSeq : Nat
  totalLength : Nat
  chunks : List (List Nat)
  status : WriteStatus
deriving DecidableEq

/-- Modelled from the spec: the greedy flush loop of `write(bytes)` — while
`bufferedLength ≥ chunkSize`, slice exactly `chunkSize` bytes as the next
chunk.  Returns the flushed chunks in order and the remaining buffer. -/
def flushAll (C : Nat) (buf : List Nat) : List (List Nat) × List Nat :=
  if _h : C = 0 ∨ buf.length < C then ([], buf)
  else
    let r := flushAll C (buf.drop C)
    (buf.take C :: r.1, r.2)
termination_by buf.length
decreasing_by
  simp only [List.length_drop]
  omega

/-- Modelled from the spec: `open(selection)` validates the chunk size
(a positive integer, reject otherwise) and starts with status Open. -/
def openWrite (C : Nat) : Except GfsError WriteState :=
  if C = 0 then Except.error GfsError.InvalidArgument
  else Except.ok ⟨[], 0, 0, [], WriteStatus.Open⟩

/-- Modelled from the spec: `write(bytes)` — valid only in status Open;
append to the buffer, account the total length, flush all complete chunks. -/
def writeBytes (C : Nat) (st : WriteState) (bytes : List Nat) :
    Except GfsError WriteState :=
  match st.status with
  | WriteStatus.Open =>
    let fl := flushAll C (st.buffer ++ bytes)
    Except.ok { buffer := fl.2,
                nextSeq := st.nextSeq + fl.1.length,
                totalLength := st.totalLength + bytes.length,
                chunks := st.chunks ++ fl.1,
                status := WriteStatus.Open }
  | _ => Except.error GfsError.WriteAfterClose

/-- Modelled from the spec: `end()` — valid only in status Open; persist the
non-empty remainder of the buffer as the final (possibly short) chunk and
the metadata length.  Returns the final chunk store and the recorded
`length`. -/
def endWrite (st : WriteState) : Except GfsError (List (List Nat) × Nat) :=
  match st.status with
  | WriteStatus.Open =>
    Except.ok (st.chunks ++ (if st.buffer.isEmpty then [] else [st.buffer]),
      st.totalLength)
  | _ => Except.error GfsError.WriteAfterClose

/-- Ceiling division, used for `endSeq = ceil(rangeEnd / chunkSize) - 1`. -/
def gfsCeilDiv (a b : Nat) : Nat := (a + b - 1) / b

/-- Modelled from the spec: the `nextChunk()` loop of the ReadSession (spec
section 4.2).  `fuel` counts the sequence numbers still to fetch (from
`startSeq` to `endSeq` inclusive); each fetched chunk is trimmed at the range
boundaries: the first chunk drops `rangeStart mod chunkSize` leading bytes,
the last chunk is truncated at the range's final byte.  A chunk absent from
the store is the fatal `MissingChunk` error. -/
def readSlicesAux (store : List (List Nat)) (C s e startSeq endSeq : Nat) :
    Nat → Nat → Except GfsError (List (List Nat))
  | _, 0 => Except.ok []
  | seq, fuel + 1 =>
    match store[seq]? with
    | none => Except.error GfsError.MissingChunk
    | some ch =>
      let t1 := if seq = endSeq then ch.take (e - seq * C) else ch
      let t2 := if seq = startSeq then t1.drop (s % C) else t1
      match readSlicesAux store C s e startSeq endSeq (seq + 1) fuel with
      | Except.ok rest => Except.ok (t2 :: rest)
      | Except.error err => Except.error err

/-- Modelled from the spec: read the byte range `[s, e)` of the file whose
chunks are `store`: `startSeq = floor(s / C)`, `endSeq = ceil(e / C) - 1`,
fetch sequence numbers `startSeq..endSeq` in order and trim at the range
boundaries. -/
def readRange (store : List (List Nat)) (C s e : Nat) :
    Except GfsError (List (List Nat)) :=
  readSlicesAux store C s e (s / C) (gfsCeilDiv e C - 1) (s / C)
    (gfsCeilDiv e C - s / C)

/-- The round-trip pipeline of the claim: open a WriteSession with chunk size
`C`, write the byte sequence `B`, `end()`, then read the full range
`[0, length)` through the ReadSession over the resulting chunk store. -/
def writeThenReadAll (B : List Nat) (C : Nat) :
    Except GfsError (List (List Nat)) :=
  match openWrite C with
  | Except.error err => Except.error err
  | Except.ok st0 =>
    match writeBytes C st0 B with
    | Except.error err => Except.error err
    | Except.ok st1 =>
      match endWrite st1 with
      | Except.error err => Except.error err
      | Except.ok fin => readRange fin.1 C 0 fin.2

theorem flushAll_join_aux (C n : Nat) : ∀ buf : List Nat, buf.length ≤ n →
    (flushAll C buf).1.flatten ++ (flushAll C buf).2 = buf := by
  induction n with
  | zero =>
    intro buf hb
    rw [flushAll]
    split
    · simp
    · rename_i h
      exfalso
      omega
  | succ m ih =>
    intro buf hb
    rw [flushAll]
    split
    · simp
    · rename_i h
      have hd : (buf.drop C).length ≤ m := by
        rw [List.length_drop]
        omega
      simp only [List.flatten_cons, List.append_assoc]
      rw [ih (buf.drop C) hd, List.take_append_drop]

theorem flushAll_join (C : Nat) (buf : List Nat) :
    (flushAll C buf).1.flatten ++ (flushAll C buf).2 = buf :=
  flushAll_join_aux C buf.length buf (Nat.le_refl _)

theorem flushAll_chunk_len_aux (C n : Nat) : ∀ buf : List Nat, buf.length ≤ n →
    ∀ ch ∈ (flushAll C buf).1, ch.length = C := by
  induction n with
  | zero =>
    intro buf hb
    rw [flushAll]
    split
    · simp
    · rename_i h
      exfalso
      omega
  | succ m ih =>
    intro buf hb
    rw [flushAll]
    split
    · simp
    · rename_i h
      intro ch hch
      rcases List.mem_cons.mp hch with hc | hc
      · subst hc
        rw [List.length_take]
        omega
      · have hd : (buf.drop C).length ≤ m := by
          rw [List.length_drop]
          omega
        exact ih (buf.drop C) hd ch hc

theorem flushAll_chunk_len (C : Nat) (buf : List Nat) :
    ∀ ch ∈ (flushAll C buf).1, ch.length = C :=
  flushAll_chunk_len_aux C buf.length buf (Nat.le_refl _)

theorem flushAll_rem_lt_aux (C n : Nat) (hC : 0 < C) : ∀ buf : List Nat,
    buf.length ≤ n → (flushAll C buf).2.length < C := by
  induction n with
  | zero =>
    intro buf hb
    rw [flushAll]
    split
    · simp only
      omega
    · rename_i h
      exfalso
      omega
  | succ m ih =>
    intro buf hb
    rw [flushAll]
    split
    · rename_i h
      simp only
      omega
    · rename_i h
      have hd : (buf.drop C).length ≤ m := by
        rw [List.length_drop]
        omega
      exact ih (buf.drop C) hd

theorem flushAll_rem_lt (C : Nat) (buf : List Nat) (hC : 0 < C) :
    (flushAll C buf).2.length < C :=
  flushAll_rem_lt_aux C buf.length hC buf (Nat.le_refl _)

theorem flatten_length_const (C : Nat) (l : List (List Nat))
    (h : ∀ ch ∈ l, ch.length = C) : l.flatten.length = C * l.length := by
  induction l with
  | nil => simp
  | cons a t ih =>
    simp only [List.flatten_cons, List.length_append, List.length_cons]
    rw [ih (fun ch hch => h ch (List.mem_cons_of_mem a hch)),
      h a (List.mem_cons_self a t)]
    ring

theorem readSlicesAux_full (store : List (List Nat)) (C L : Nat)
    (hfull : ∀ i ch, store[i]? = some ch → i + 1 < store.length → ch.length = C)
    (hlast : ∀ i ch, store[i]? = some ch → i + 1 = store.length →
      ch.length = L - i * C) :
    ∀ fuel seq, seq + fuel = store.length →
      readSlicesAux store C 0 L 0 (store.length - 1) seq fuel
        = Except.ok (store.drop seq) := by
  intro fuel
  induction fuel with
  | zero =>
    intro seq hseq
    have hs : seq = store.length := by omega
    subst hs
    rw [List.drop_length]
    rfl
  | succ f ih =>
    intro seq hseq
    have hlt : seq < store.length := by omega
    have hget : store[seq]? = some (store.get ⟨seq, hlt⟩) := by
      simp [List.getElem?_eq_getElem hlt]
    have hrec := ih (seq + 1) (by omega)
    by_cases hend : seq = store.length - 1
    · have hlen : (store.get ⟨seq, hlt⟩).length = L - seq * C :=
        hlast seq (store.get ⟨seq, hlt⟩) hget (by omega)
      simp only [readSlicesAux, hget, hrec, if_pos hend, Nat.zero_mod,
        List.drop_zero, ite_self]
      rw [← hlen, List.take_length, List.drop_eq_getElem_cons hlt]
      rfl
    · have hlen : (store.get ⟨seq, hlt⟩).length = C :=
        hfull seq (store.get ⟨seq, hlt⟩) hget (by omega)
      simp only [readSlicesAux, hget, hrec, if_neg hend, Nat.zero_mod,
        List.drop_zero, ite_self]
      rw [List.drop_eq_getElem_cons hlt]
      rfl

theorem readRange_full (store : List (List Nat)) (C L : Nat)
    (hn : gfsCeilDiv L C = store.length)
    (hfull : ∀ i ch, store[i]? = some ch → i + 1 < store.length → ch.length = C)
    (hlast : ∀ i ch, store[i]? = some ch → i + 1 = store.length →
      ch.length = L - i * C) :
    readRange store C 0 L = Except.ok store := by
  unfold readRange
  rw [Nat.zero_div, hn]
  have h := readSlicesAux_full store C L hfull hlast store.length 0 (by omega)
  simpa using h

theorem writeThenReadAll_eq (B : List Nat) (C : Nat) (hC : 0 < C) :
    writeThenReadAll B C
      = readRange ((flushAll C B).1 ++
          (if (flushAll C B).2.isEmpty then [] else [(flushAll C B).2]))
          C 0 B.length := by
  unfold writeThenReadAll openWrite writeBytes endWrite
  rw [if_neg (by omega : ¬ C = 0)]
  simp

/-- Claim C4: for every byte sequence `B` and every chunk size `C > 0`,
writing `B` through a WriteSession opened with chunkSize `C` and then
reading the full range `[0, length)` through a ReadSession over the same
chunk store succeeds and produces a sequence of byte slices whose
concatenation is exactly `B`. -/
theorem c4_round_trip (B : List Nat) (C : Nat) (hC : 0 < C) :
    ∃ slices, writeThenReadAll B C = Except.ok slices ∧ slices.flatten = B := by
  have hj := flushAll_join C B
  have hcl := flushAll_chunk_len C B
  have hrl := flushAll_rem_lt C B hC
  have hklen := flatten_length_const C (flushAll C B).1 hcl
  by_cases hre : (flushAll C B).2 = []
  · have hstore : ((flushAll C B).1 ++
        (if (flushAll C B).2.isEmpty then [] else [(flushAll C B).2]))
          = (flushAll C B).1 := by
      simp [hre]
    have hBflat : (flushAll C B).1.flatten = B := by
      conv_rhs => rw [← hj]
      rw [hre, List.append_nil]
    have hBlen : B.length = C * (flushAll C B).1.length := by
      conv_lhs => rw [← hBflat]
      exact hklen
    refine ⟨(flushAll C B).1, ?_, hBflat⟩
    rw [writeThenReadAll_eq B C hC, hstore]
    apply readRange_full
    · rw [hBlen]
      unfold gfsCeilDiv
      have h1 : C * (flushAll C B).1.length + C - 1
          = C * (flushAll C B).1.length + (C - 1) := by omega
      rw [h1, Nat.mul_add_div hC, Nat.div_eq_of_lt (by omega), Nat.add_zero]
    · intro i ch hch _
      exact hcl ch (List.getElem?_mem hch)
    · intro i ch hch hi
      have hc1 : ch.length = C := hcl ch (List.getElem?_mem hch)
      have hk : (flushAll C B).1.length = i + 1 := by omega
      rw [hc1, hBlen, hk, Nat.mul_succ, Nat.mul_comm C i]
      omega
  · have hrne : (flushAll C B).2.isEmpty = false :=
      List.isEmpty_eq_false.mpr hre
    have hstore : ((flushAll C B).1 ++
        (if (flushAll C B).2.isEmpty then [] else [(flushAll C B).2]))
          = (flushAll C B).1 ++ [(flushAll C B).2] := by
      rw [hrne]
      simp
    have hBflat : ((flushAll C B).1 ++ [(flushAll C B).2]).flatten = B := by
      rw [List.flatten_append]
      simpa using hj
    have hrpos : 0 < (flushAll C B).2.length := List.length_pos.mpr hre
    have hBlen : B.length
        = C * (flushAll C B).1.length + (flushAll C B).2.length := by
      conv_lhs => rw [← hj]
      rw [List.length_append, hklen]
    refine ⟨(flushAll C B).1 ++ [(flushAll C B).2], ?_, hBflat⟩
    rw [writeThenReadAll_eq B C hC, hstore]
    apply readRange_full
    · rw [hBlen]
      unfold gfsCeilDiv
      have h1 : C * (flushAll C B).1.length + (flushAll C B).2.length + C - 1
          = C * (flushAll C B).1.length + (((flushAll C B).2.length - 1) + C) := by
        omega
      rw [h1, Nat.mul_add_div hC, Nat.add_div_right _ hC,
        Nat.div_eq_of_lt (by omega)]
      simp [List.length_append]
    · intro i ch hch hi
      simp only [List.length_append, List.length_cons, List.length_nil] at hi
      have hik : i < (flushAll C B).1.length := by omega
      rw [List.getElem?_append_left hik] at hch
      exact hcl ch (List.getElem?_mem hch)
    · intro i ch hch hi
      simp only [List.length_append, List.length_cons, List.length_nil] at hi
      have hik : i = (flushAll C B).1.length := by omega
      rw [hik, List.getElem?_append_right (Nat.le_refl _)] at hch
      simp only [Nat.sub_self] at hch
      have hch2 : ch = (flushAll C B).2 := by
        simpa using hch.symm
      rw [hch2, hik, hBlen, Nat.mul_comm C (flushAll C B).1.length]
      omega

/-- Claim C4, witnessed on the spec's own concrete scenario: chunk size 4
and the eleven bytes of "hello world"; the round trip reproduces the
bytes. -/
theorem c4_round_trip_witness :
    ∃ slices, writeThenReadAll
        [104, 101, 108, 108, 111, 32, 119, 111, 114, 108, 100] 4
          = Except.ok slices
      ∧ slices.flatten
          = [104, 101, 108, 108, 111, 32, 119, 111, 114, 108, 100] :=
  c4_round_trip [104, 101, 108, 108, 111, 32, 119, 111, 114, 108, 100] 4
    (by decide)
